import Mathlib

/-!
Shallow embedding, in Lean 4, of the accelerator-context and compiled-module
caching subsystem of `src/libgeobacter/context.rs` (geobacter-rust).

Modelling conventions:
* `Context` identity is a natural number; the set of still-live contexts is an
  explicit `alive` list (the strong count of the backing `Arc` is positive).  A
  `WeakContext::upgrade` succeeds exactly when the recorded id is in `alive`.
* A `ModuleData` allocation is a heap cell at a nonzero address (`Nat`); the
  heap maps addresses to the recorded owning-context id (`ModuleData::ctxt`,
  a weak reference).  `rc` maps addresses to their `Arc` strong count.
* The `ModuleContextData` word of atomic storage is `cell` (`0` = empty
  sentinel, otherwise the address obtained from `Arc::into_raw`).
* Process-terminating failures (`assert!`/`expect`/`unreachable!`) are the
  `Outcome.fatal` value; everything else is `Outcome.ok`.
* The embedding is sequential: one call runs to completion with no interfering
  writer, so each compare-and-swap sees the cell value the call itself last
  established.  The raced branches of the source are still translated.
-/

/-- Result of an operation that can terminate the process with a fatal
assertion instead of returning. -/
inductive Outcome (α : Type) : Type where
  | ok : α → Outcome α
  | fatal : Outcome α
  deriving Repr, DecidableEq

/-- Global state seen by one kernel `ModuleContextData` cell. -/
structure MCDState where
  /-- The static `AtomicUsize`: `0` is the empty sentinel, otherwise the
  address of the published `ModuleData`. -/
  cell : Nat
  /-- Heap of `ModuleData` allocations: address to the recorded owning
  context id (the `ctxt : WeakContext` field). -/
  heap : List (Nat × Nat)
  /-- Strong counts (`Arc`), per `ModuleData` address. -/
  rc : List (Nat × Nat)
  /-- Ids of the contexts that are still live (not yet dropped). -/
  alive : List Nat
  /-- Next fresh nonzero address handed out by `Arc::new`. -/
  nextPtr : Nat
  deriving Repr, DecidableEq

/-- Strong count of the allocation at `p` (0 when never allocated). -/
def rcOf (s : MCDState) (p : Nat) : Nat := (s.rc.lookup p).getD 0

/-- Cloning (`arc.clone()`): one more strong count on `p`. -/
def bumpRc (s : MCDState) (p : Nat) : MCDState :=
  { s with rc := (p, rcOf s p + 1) :: s.rc }

/-- Dropping one strong reference to `p`. -/
def decRc (s : MCDState) (p : Nat) : MCDState :=
  { s with rc := (p, rcOf s p - 1) :: s.rc }

namespace ModuleContextData

/-- Embeds `ModuleContextData::upgrade`: load the cell; on the empty sentinel return
`None`.  Otherwise reconstruct a temporary strong reference (net `rc` change
`+1` only when the `ModuleData` is returned), upgrade the recorded weak
context, return `None` when it is dead, and `assert!` (fatal) when it is live
but is not the supplied context. -/
def upgrade (s : MCDState) (context : Nat) : Outcome (Option Nat × MCDState) :=
  if s.cell = 0 then .ok (none, s)
  else
    match s.heap.lookup s.cell with
    | none => .fatal
    | some c =>
      if c ∈ s.alive then
        if c = context then .ok (some s.cell, bumpRc s s.cell)
        else .fatal
      else .ok (none, s)

/-- Embeds `ModuleContextData::get_cache_data`: try `upgrade`; on a miss allocate a
fresh `ModuleData` recorded to `context` (strong count 2: the local `Arc`
plus the `Arc::into_raw` unit destined for the cell) and publish it with a
compare-and-swap from the empty sentinel; on CAS failure re-run `upgrade`,
either adopting the winner (dropping both units of the fresh allocation) or
replacing the stale value with a second compare-and-swap, whose success is
the one path that releases the ownership unit of the previously cached
`ModuleData`. -/
def get_cache_data (s : MCDState) (context : Nat) : Outcome (Nat × MCDState) :=
  match upgrade s context with
  | .fatal => .fatal
  | .ok (some p, s1) => .ok (p, s1)
  | .ok (none, s1) =>
    let data_ptr := s1.nextPtr
    let s2 : MCDState :=
      { s1 with
        heap := (data_ptr, context) :: s1.heap
        rc := (data_ptr, 2) :: s1.rc
        nextPtr := s1.nextPtr + 1 }
    -- compare_exchange(0, data_usize)
    if s2.cell = 0 then
      .ok (data_ptr, { s2 with cell := data_ptr })
    else
      -- Err(actual_data_usize): someone beat us, or the data is old.
      let actual := s2.cell
      match upgrade s2 context with
      | .fatal => .fatal
      | .ok (some q, s3) =>
        -- someone beat us: drop the raw unit and the local `data`.
        .ok (q, decRc (decRc s3 data_ptr) data_ptr)
      | .ok (none, s3) =>
        -- the data is old; compare_exchange(actual_data_usize, data_usize)
        if s3.cell = actual then
          -- stale-replacement success: release the old ownership unit.
          .ok (data_ptr, decRc { s3 with cell := data_ptr } actual)
        else
          -- a third party raced in: drop ours, expect `upgrade` to hit.
          match upgrade (decRc (decRc s3 data_ptr) data_ptr) context with
          | .ok (some q, s4) => .ok (q, s4)
          | _ => .fatal

end ModuleContextData

/-- A stored platform module handle (`Arc<dyn PlatformModuleData>`): `tag` is
the concrete platform type (`TypeId`), `val` identifies the handle.  The
`downcast_arc` of the source succeeds exactly when the tags agree. -/
structure PModule where
  tag : Nat
  val : Nat
  deriving Repr, DecidableEq

/-- Embeds `ModuleData::entries`: the `IndexVec<AcceleratorId, Option<Arc<dyn
PlatformModuleData>>>` behind the rw-lock. -/
abbrev Entries := List (Option PModule)

/-- Embeds `Vec::resize(accel_id.index() + 1, None)` guarded by
`len() <= accel_id.index()`, as both `ModuleData::compile` and
`Context::initialize_accel` perform it. -/
def resize_to {α : Type} (l : List (Option α)) (i : Nat) : List (Option α) :=
  if l.length ≤ i then l ++ List.replicate (i + 1 - l.length) none else l

namespace ModuleData

/-- Embeds `ModuleData::get`: shared-read lookup of the slot at `accel_id`.
`expect_tag` is the platform module type `D::ModuleData` expects; a stored
module of another type is a fatal inconsistency under
`expect_platform_ty = true` and a logged miss otherwise. -/
def get (entries : Entries) (accel_id : Nat) (expect_tag : Nat)
    (expect_platform_ty : Bool) : Outcome (Option PModule) :=
  match entries.getD accel_id none with
  | none => .ok none
  | some v =>
    if v.tag = expect_tag then .ok (some v)
    else if expect_platform_ty then .fatal
    else .ok none

/-- Tail of `ModuleData::compile` past the cache checks: run the
collaborator `codegen.codegen(desc)`, upgrade the lock, grow the table,
run `D::load_kernel` (whose result is a module of the expected platform
type), and publish it.  The `Bool` records that codegen was invoked. -/
def compile_slow (entries : Entries) (accel_id : Nat) (expect_tag : Nat)
    (codegen : Except Nat Nat) (load_kernel : Nat → Except Nat Nat) :
    Outcome (Except Nat PModule × Entries × Bool) :=
  match codegen with
  | .error e => .ok (.error e, entries, true)
  | .ok artifact =>
    let grown := resize_to entries accel_id
    match load_kernel artifact with
    | .error e => .ok (.error e, grown, true)
    | .ok v =>
      let m : PModule := ⟨expect_tag, v⟩
      .ok (.ok m, grown.set accel_id (some m), true)

/-- Embeds `ModuleData::compile`: fast-path `get`; then the re-check under the
upgradable read lock (a mismatched stored type is fatal only under
`expect_platform_ty`, and otherwise falls through to compilation); then
`compile_slow`. -/
def compile (entries : Entries) (accel_id : Nat) (expect_tag : Nat)
    (expect_platform_ty : Bool)
    (codegen : Except Nat Nat) (load_kernel : Nat → Except Nat Nat) :
    Outcome (Except Nat PModule × Entries × Bool) :=
  match get entries accel_id expect_tag expect_platform_ty with
  | .fatal => .fatal
  | .ok (some entry) => .ok (.ok entry, entries, false)
  | .ok none =>
    match entries.getD accel_id none with
    | some prev =>
      if prev.tag = expect_tag then
        -- someone beat us; no second platform module object is created
        .ok (.ok prev, entries, false)
      else if expect_platform_ty then .fatal
      else compile_slow entries accel_id expect_tag codegen load_kernel
    | none => compile_slow entries accel_id expect_tag codegen load_kernel

end ModuleData

/-- An `Arc<dyn Accelerator>` as far as the context registries observe it:
its id, its `AcceleratorTargetDesc` (a hash-map key, here a `Nat`), and the
`CodegenDriver` it is attached to after initialization (an address). -/
structure Accel where
  id : Nat
  target_desc : Nat
  codegen : Option Nat
  deriving Repr, DecidableEq

/-- The parts of `ContextData`/`ContextDataMut` the claims concern: the
`Translators` weak map from target descriptor to codegen-driver address,
the set of driver addresses still live (a `Weak::upgrade` succeeds exactly
for those), and the accelerator table. -/
structure CtxState where
  translators : List (Nat × Nat)
  driverAlive : List Nat
  accelerators : List (Option Accel)
  deriving Repr, DecidableEq

/-- Overwriting the value of an occupied hash-map entry
(`*o.get_mut() = ...`). -/
def update_entry (l : List (Nat × Nat)) (k v : Nat) : List (Nat × Nat) :=
  l.map fun e => if e.1 = k then (k, v) else e

namespace Context

/-- Value of `usize::max_value()` on the 64-bit targets the runtime supports. -/
def usize_max : Nat := 2 ^ 64 - 1

/-- Embeds `Context::take_accel_id`: `fetch_add(1)` on the atomic counter (wrapping
at the word size), then `panic!` when the allocated id exceeds
`usize::max_value() / 2`.  State is the counter word; the result pairs the
allocated id with the new counter. -/
def take_accel_id (next : Nat) : Outcome (Nat × Nat) :=
  let id := next % 2 ^ 64
  let next' := (next + 1) % 2 ^ 64
  if usize_max / 2 < id then .fatal
  else .ok (id, next')

/-- Iterate `take_accel_id` `n` times from counter `c`, collecting the
allocated ids; `none` when some call panicked. -/
def run_take_ids (c : Nat) : Nat → Option (List Nat)
  | 0 => some []
  | n + 1 =>
    match take_accel_id c with
    | .fatal => none
    | .ok (id, c') => (run_take_ids c' n).map (id :: ·)

/-- Publish `accel` at its id in the accelerator table, growing the table
when needed, with the given new translators map — the tail of
`Context::initialize_accel`. -/
def publish_accel (s : CtxState) (tr : List (Nat × Nat)) (a : Accel) :
    CtxState :=
  { s with translators := tr
           accelerators := (resize_to s.accelerators a.id).set a.id (some a) }

/-- Embeds `Context::initialize_accel` (here `init_accel`): look the accelerator
target descriptor up in the weak registry; attach the live driver on a hit;
on a dead entry or a vacant entry, run the collaborator
`create_target_codegen` (the `create` argument) and republish / insert the
new driver; finally publish the accelerator at its id.  The `Bool` records
whether `create_target_codegen` was invoked. -/
def init_accel (s : CtxState) (accel : Accel) (create : Except Nat Nat) :
    Except Nat (CtxState × Accel × Bool) :=
  match s.translators.lookup accel.target_desc with
  | some w =>
    if w ∈ s.driverAlive then
      let a := { accel with codegen := some w }
      .ok (publish_accel s s.translators a, a, false)
    else
      match create with
      | .error e => .error e
      | .ok cg =>
        let a := { accel with codegen := some cg }
        .ok (publish_accel s (update_entry s.translators accel.target_desc cg) a,
             a, true)
  | none =>
    match create with
    | .error e => .error e
    | .ok cg =>
      let a := { accel with codegen := some cg }
      .ok (publish_accel s ((accel.target_desc, cg) :: s.translators) a, a, true)

/-- Embeds `Context::filter_accels`: read the table, skip unfilled slots, filter by
the predicate; the `Result` is always `Ok`. -/
def filter_accels (s : CtxState) (f : Accel → Bool) :
    Except Nat (List Accel) :=
  .ok ((s.accelerators.filterMap id).filter f)

/-- Embeds `Context::find_accel`: read the table, skip unfilled slots, return the
first accelerator satisfying the predicate; the `Result` is always `Ok`. -/
def find_accel (s : CtxState) (f : Accel → Bool) :
    Except Nat (Option Accel) :=
  .ok ((s.accelerators.filterMap id).find? f)

end Context

/-! ### List helper lemmas -/

theorem lookup_cons_self {β : Type} (k : Nat) (v : β) (l : List (Nat × β)) :
    ((k, v) :: l).lookup k = some v := by
  simp [List.lookup]

theorem lookup_cons_ne {β : Type} (k a : Nat) (v : β) (l : List (Nat × β))
    (h : a ≠ k) : ((k, v) :: l).lookup a = l.lookup a := by
  have hb : (a == k) = false := beq_eq_false_iff_ne.mpr h
  simp [List.lookup, hb]

theorem length_resize_to {α : Type} (l : List (Option α)) (i : Nat) :
    i < (resize_to l i).length := by
  unfold resize_to
  split
  next h => simp; omega
  next h => omega

theorem resize_to_eq_self {α : Type} (l : List (Option α)) (i : Nat)
    (h : i < l.length) : resize_to l i = l := by
  unfold resize_to
  split
  next h2 => omega
  next h2 => rfl

theorem getD_set_of_lt {α : Type} (l : List (Option α)) (i : Nat)
    (x : Option α) (h : i < l.length) : (l.set i x).getD i none = x := by
  induction l generalizing i with
  | nil => simp at h
  | cons a l ih =>
    cases i with
    | zero => simp
    | succ n =>
      simp only [List.set_cons_succ, List.getD_cons_succ]
      exact ih n (by simpa using h)

theorem getD_replicate_none {α : Type} (k i : Nat) :
    (List.replicate k (none : Option α)).getD i none = none := by
  induction k generalizing i with
  | zero => simp [List.getD]
  | succ n ih =>
    cases i with
    | zero => simp [List.replicate]
    | succ j => simp [List.replicate, ih]

theorem getD_append_replicate_none {α : Type} (l : List (Option α))
    (k i : Nat) :
    (l ++ List.replicate k (none : Option α)).getD i none = l.getD i none := by
  induction l generalizing i with
  | nil => simp [getD_replicate_none, List.getD]
  | cons a l ih =>
    cases i with
    | zero => simp
    | succ n => simpa using ih n

theorem getD_resize_to {α : Type} (l : List (Option α)) (i : Nat) :
    (resize_to l i).getD i none = l.getD i none := by
  unfold resize_to
  split
  next h => exact getD_append_replicate_none l _ i
  next h => rfl

theorem find?_eq_head?_filter {α : Type} (p : α → Bool) (l : List α) :
    l.find? p = (l.filter p).head? := by
  induction l with
  | nil => rfl
  | cons a l ih =>
    cases h : p a with
    | true => simp [List.find?_cons_of_pos _ h, List.filter_cons, h]
    | false =>
      rw [List.find?_cons_of_neg _ (by simp [h]), ih]
      simp [List.filter_cons, h]

/-! ### ModuleData cache helper lemmas -/

theorem moduleData_get_hit (entries : Entries) (i t : Nat) (must : Bool)
    (m : PModule) (hslot : entries.getD i none = some m) (hmt : m.tag = t) :
    ModuleData.get entries i t must = .ok (some m) := by
  unfold ModuleData.get
  simp only [hslot]
  simp [hmt]

theorem moduleData_compile_hit (entries : Entries) (i t : Nat) (must : Bool)
    (cg : Except Nat Nat) (lk : Nat → Except Nat Nat) (m : PModule)
    (hslot : entries.getD i none = some m) (hmt : m.tag = t) :
    ModuleData.compile entries i t must cg lk = .ok (.ok m, entries, false) := by
  unfold ModuleData.compile ModuleData.get
  simp only [hslot]
  simp [hmt]

theorem moduleData_compile_miss (entries : Entries) (i t : Nat) (must : Bool)
    (a v : Nat) (lk : Nat → Except Nat Nat)
    (hslot : entries.getD i none = none) (hlk : lk a = .ok v) :
    ModuleData.compile entries i t must (.ok a) lk =
      .ok (.ok ⟨t, v⟩, (resize_to entries i).set i (some ⟨t, v⟩), true) := by
  unfold ModuleData.compile ModuleData.get ModuleData.compile_slow
  simp only [hslot]
  simp [hlk]

/-! ### Claims C4 - C7: the per-accelerator module cache -/

/-- C7: when the slot for `accel_id` holds a module whose platform type tag
matches the one the querying device expects, `ModuleData::get` returns the
stored module; on a mismatch it is fatal when the caller passes the
must-match-type flag and returns empty (a logged cache miss) when it does
not. -/
theorem moduleData_get_type_tag_discipline (entries : Entries) (i t : Nat)
    (m : PModule) (hslot : entries.getD i none = some m) :
    (m.tag = t → ∀ must, ModuleData.get entries i t must = .ok (some m)) ∧
    (m.tag ≠ t → ModuleData.get entries i t true = .fatal) ∧
    (m.tag ≠ t → ModuleData.get entries i t false = .ok none) := by
  refine ⟨fun h must => moduleData_get_hit entries i t must m hslot h, ?_, ?_⟩ <;>
    intro h <;>
    · unfold ModuleData.get
      simp only [hslot]
      simp [h]

/-- Witness for C7 at concrete slots. -/
theorem moduleData_get_type_tag_discipline_witness :
    ModuleData.get [some ⟨1, 2⟩] 0 1 true = .ok (some ⟨1, 2⟩) ∧
    ModuleData.get [some ⟨3, 2⟩] 0 1 true = .fatal ∧
    ModuleData.get [some ⟨3, 2⟩] 0 1 false = .ok none :=
  ⟨(moduleData_get_type_tag_discipline [some ⟨1, 2⟩] 0 1 ⟨1, 2⟩ rfl).1 rfl true,
   (moduleData_get_type_tag_discipline [some ⟨3, 2⟩] 0 1 ⟨3, 2⟩ rfl).2.1 (by decide),
   (moduleData_get_type_tag_discipline [some ⟨3, 2⟩] 0 1 ⟨3, 2⟩ rfl).2.2 (by decide)⟩

/-- C4 counterexample: a slot populated with a module of platform type 0 is
replaced when `ModuleData::compile` is invoked for the same accelerator by a
device expecting platform type 1 with the must-match-type flag false — the
slot is overwritten and a later `get` for the original type no longer
returns the original module. -/
theorem moduleData_compile_replaces_foreign_slot :
    ModuleData.compile [some ⟨0, 10⟩] 0 1 false (.ok 0) (fun _ => .ok 99)
      = .ok (.ok ⟨1, 99⟩, [some ⟨1, 99⟩], true) ∧
    ([some (⟨1, 99⟩ : PModule)].getD 0 none ≠ some (⟨0, 10⟩ : PModule)) ∧
    ModuleData.get [some ⟨1, 99⟩] 0 0 false = .ok none := by
  refine ⟨rfl, by decide, by decide⟩

/-- C4 (amended): once the module slot for an accelerator id is populated, a
later `ModuleData::compile` whose device expects the stored platform type
(with either value of the must-match-type flag) never replaces it: it
returns the identical module and leaves the entries untouched, and `get`
keeps returning the identical module. -/
theorem moduleData_write_once_same_type (entries : Entries) (i t : Nat)
    (must : Bool) (cg : Except Nat Nat) (lk : Nat → Except Nat Nat)
    (m : PModule) (hslot : entries.getD i none = some m) (hmt : m.tag = t) :
    ModuleData.compile entries i t must cg lk = .ok (.ok m, entries, false) ∧
    ModuleData.get entries i t must = .ok (some m) :=
  ⟨moduleData_compile_hit entries i t must cg lk m hslot hmt,
   moduleData_get_hit entries i t must m hslot hmt⟩

/-- Witness for the amended C4 at a concrete populated slot. -/
theorem moduleData_write_once_same_type_witness :
    ModuleData.compile [some ⟨2, 5⟩] 0 2 true (.error 7) (fun _ => .error 7)
      = .ok (.ok ⟨2, 5⟩, [some ⟨2, 5⟩], false) ∧
    ModuleData.get [some ⟨2, 5⟩] 0 2 true = .ok (some ⟨2, 5⟩) :=
  moduleData_write_once_same_type [some ⟨2, 5⟩] 0 2 true (.error 7)
    (fun _ => .error 7) ⟨2, 5⟩ rfl rfl

/-- C5: a populated slot of the expected platform type is returned without
invoking the collaborator codegen operation (the `Bool` in the result is the
codegen-invocation flag); and from an unpopulated slot one `compile` invokes
codegen once and publishes the module, after which every further `compile`
returns the identical module without invoking codegen again. -/
theorem moduleData_compile_single_flight (entries : Entries) (i t : Nat) :
    (∀ (m : PModule) (must : Bool) cg lk, entries.getD i none = some m →
      m.tag = t →
      ModuleData.compile entries i t must cg lk = .ok (.ok m, entries, false)) ∧
    (∀ (must : Bool) (a v : Nat) (lk : Nat → Except Nat Nat),
      entries.getD i none = none → lk a = .ok v →
      ∃ e2 : Entries,
        ModuleData.compile entries i t must (.ok a) lk
          = .ok (.ok ⟨t, v⟩, e2, true) ∧
        e2.getD i none = some ⟨t, v⟩ ∧
        ∀ (must2 : Bool) cg2 lk2,
          ModuleData.compile e2 i t must2 cg2 lk2
            = .ok (.ok ⟨t, v⟩, e2, false)) := by
  refine ⟨fun m must cg lk hs hm => moduleData_compile_hit entries i t must cg lk m hs hm,
         fun must a v lk hs hlk => ?_⟩
  refine ⟨(resize_to entries i).set i (some ⟨t, v⟩),
          moduleData_compile_miss entries i t must a v lk hs hlk, ?_, ?_⟩
  · exact getD_set_of_lt _ i _ (length_resize_to entries i)
  · intro must2 cg2 lk2
    exact moduleData_compile_hit _ i t must2 cg2 lk2 ⟨t, v⟩
      (getD_set_of_lt _ i _ (length_resize_to entries i)) rfl

/-- Witness for C5: two successive compiles on an initially empty cache. -/
theorem moduleData_compile_single_flight_witness :
    ∃ e2 : Entries,
      ModuleData.compile [] 0 3 false (.ok 1) (fun _ => .ok 5)
        = .ok (.ok ⟨3, 5⟩, e2, true) ∧
      e2.getD 0 none = some ⟨3, 5⟩ ∧
      ∀ (must2 : Bool) cg2 lk2,
        ModuleData.compile e2 0 3 must2 cg2 lk2 = .ok (.ok ⟨3, 5⟩, e2, false) :=
  (moduleData_compile_single_flight [] 0 3).2 false 1 5 (fun _ => .ok 5) rfl rfl

/-- C6: collaborator failures propagate and are never cached.  With an
unpopulated slot, a codegen error is returned with the entries untouched; a
module-load error is returned with the slot still unpopulated (only the
table was grown); and a subsequent `compile` invokes the collaborator again
from scratch (codegen-invocation flag true) and can succeed. -/
theorem moduleData_compile_error_not_cached (entries : Entries) (i t : Nat)
    (must : Bool) (hslot : entries.getD i none = none) :
    (∀ e lk, ModuleData.compile entries i t must (.error e) lk
        = .ok (.error e, entries, true)) ∧
    (∀ a e, ModuleData.compile entries i t must (.ok a) (fun _ => .error e)
        = .ok (.error e, resize_to entries i, true)) ∧
    (resize_to entries i).getD i none = none ∧
    (∀ a2 v2, ModuleData.compile (resize_to entries i) i t must (.ok a2)
        (fun _ => .ok v2)
        = .ok (.ok ⟨t, v2⟩, (resize_to entries i).set i (some ⟨t, v2⟩), true)) := by
  have hgrown : (resize_to entries i).getD i none = none :=
    (getD_resize_to entries i).trans hslot
  refine ⟨?_, ?_, hgrown, ?_⟩
  · intro e lk
    unfold ModuleData.compile ModuleData.get ModuleData.compile_slow
    simp only [hslot]
  · intro a e
    unfold ModuleData.compile ModuleData.get ModuleData.compile_slow
    simp only [hslot]
  · intro a2 v2
    have h := moduleData_compile_miss (resize_to entries i) i t must a2 v2
      (fun _ => .ok v2) hgrown rfl
    rwa [resize_to_eq_self (resize_to entries i) i (length_resize_to entries i)] at h

/-- Witness for C6 on an initially empty cache. -/
theorem moduleData_compile_error_not_cached_witness :
    ModuleData.compile [] 0 4 false (.error 9) (fun _ => .ok 1)
      = .ok (.error 9, [], true) ∧
    ModuleData.compile [] 0 4 false (.ok 2) (fun _ => .error 8)
      = .ok (.error 8, resize_to [] 0, true) ∧
    (resize_to ([] : Entries) 0).getD 0 none = none ∧
    ModuleData.compile (resize_to [] 0) 0 4 false (.ok 2) (fun _ => .ok 6)
      = .ok (.ok ⟨4, 6⟩, (resize_to ([] : Entries) 0).set 0 (some ⟨4, 6⟩), true) :=
  ⟨(moduleData_compile_error_not_cached [] 0 4 false rfl).1 9 _,
   (moduleData_compile_error_not_cached [] 0 4 false rfl).2.1 2 8,
   (moduleData_compile_error_not_cached [] 0 4 false rfl).2.2.1,
   (moduleData_compile_error_not_cached [] 0 4 false rfl).2.2.2 2 6⟩

/-! ### Claim C10: filter_accels / find_accel never fail -/

/-- C10: `Context::filter_accels` and `Context::find_accel` always return
`Ok` although typed as `Result`: `filter_accels` returns exactly the
registered accelerators satisfying the predicate (unfilled `None` table
slots skipped), and `find_accel` returns the first of them (or empty). -/
theorem context_queries_infallible (s : CtxState) (f : Accel → Bool) :
    ∃ l : List Accel, Context.filter_accels s f = .ok l ∧
      (∀ a, a ∈ l ↔ some a ∈ s.accelerators ∧ f a = true) ∧
      Context.find_accel s f = .ok l.head? := by
  refine ⟨(s.accelerators.filterMap id).filter f, rfl, ?_, ?_⟩
  · intro a
    simp [List.mem_filter, List.mem_filterMap]
  · unfold Context.find_accel
    rw [find?_eq_head?_filter]

/-- Witness for C10 at a concrete accelerator table. -/
theorem context_queries_infallible_witness :
    ∃ l : List Accel,
      Context.filter_accels ⟨[], [], [none, some ⟨1, 2, none⟩]⟩
        (fun a => a.id == 1) = .ok l ∧
      (∀ a, a ∈ l ↔ some a ∈ [none, some (⟨1, 2, none⟩ : Accel)] ∧
        (a.id == 1) = true) ∧
      Context.find_accel ⟨[], [], [none, some ⟨1, 2, none⟩]⟩
        (fun a => a.id == 1) = .ok l.head? :=
  context_queries_infallible ⟨[], [], [none, some ⟨1, 2, none⟩]⟩
    (fun a => a.id == 1)

/-! ### Claim C9: accelerator id allocation -/

/-- C9: `Context::take_accel_id` panics exactly when the allocated counter
value exceeds half the representable range of the counter word; runs of
successful calls return the consecutive ids starting at the initial counter
value — pairwise distinct and strictly increasing, starting from 0 for a
fresh Context — and every run of at most `2 ^ 63` calls from 0 succeeds. -/
theorem take_accel_id_spec :
    (∀ c, Context.take_accel_id c = .fatal ↔
      Context.usize_max / 2 < c % 2 ^ 64) ∧
    (∀ n c ids, Context.run_take_ids c n = some ids →
      ids = List.range' (c % 2 ^ 64) n ∧ ids.Pairwise (· < ·)) ∧
    (∀ n, n ≤ 2 ^ 63 → Context.run_take_ids 0 n = some (List.range n)) := by
  have hmax : Context.usize_max / 2 = 2 ^ 63 - 1 := by norm_num [Context.usize_max]
  have hfatal : ∀ c, Context.take_accel_id c = .fatal ↔
      Context.usize_max / 2 < c % 2 ^ 64 := by
    intro c
    by_cases h : Context.usize_max / 2 < c % 2 ^ 64 <;>
      simp [Context.take_accel_id, h]
  have hrange : ∀ n c ids, Context.run_take_ids c n = some ids →
      ids = List.range' (c % 2 ^ 64) n := by
    intro n
    induction n with
    | zero =>
      intro c ids h
      simp only [Context.run_take_ids, Option.some.injEq] at h
      rw [← h]
      rfl
    | succ n ih =>
      intro c ids h
      unfold Context.run_take_ids at h
      by_cases hful : Context.usize_max / 2 < c % 2 ^ 64
      · rw [(hfatal c).2 hful] at h
        cases h
      · have hok : Context.take_accel_id c
            = .ok (c % 2 ^ 64, (c + 1) % 2 ^ 64) := by
          show (if Context.usize_max / 2 < c % 2 ^ 64 then Outcome.fatal
            else Outcome.ok (c % 2 ^ 64, (c + 1) % 2 ^ 64)) = _
          rw [if_neg hful]
        rw [hok] at h
        simp only [Option.map_eq_some'] at h
        obtain ⟨rest, hrest, hids⟩ := h
        have hlt : c % 2 ^ 64 < 2 ^ 63 := by rw [hmax] at hful; omega
        have hsucc : (c + 1) % 2 ^ 64 = c % 2 ^ 64 + 1 := by
          rw [Nat.add_mod, Nat.mod_eq_of_lt (show (1 : Nat) < 2 ^ 64 by norm_num),
            Nat.mod_eq_of_lt (by norm_num; omega)]
        have hthis := ih ((c + 1) % 2 ^ 64) rest hrest
        rw [hsucc, Nat.mod_eq_of_lt (by norm_num; omega)] at hthis
        rw [← hids, hthis]
        exact (List.range'_succ _ _ _).symm
  have hpair : ∀ s n, (List.range' s n).Pairwise (· < ·) := by
    intro s n
    induction n generalizing s with
    | zero => simp [List.range']
    | succ n ih =>
      rw [List.range'_succ]
      exact List.Pairwise.cons
        (fun x hx => ((List.mem_range'_1).1 hx).1) (ih (s + 1))
  have hcomplete : ∀ n c, c + n ≤ 2 ^ 63 →
      Context.run_take_ids c n = some (List.range' c n) := by
    intro n
    induction n with
    | zero => intro c h; rfl
    | succ n ih =>
      intro c h
      have hc : c % 2 ^ 64 = c := Nat.mod_eq_of_lt (by norm_num; omega)
      have hc1 : (c + 1) % 2 ^ 64 = c + 1 := Nat.mod_eq_of_lt (by norm_num; omega)
      have hnl : ¬ Context.usize_max / 2 < c % 2 ^ 64 := by rw [hmax, hc]; omega
      have hok : Context.take_accel_id c = .ok (c, c + 1) := by
        show (if Context.usize_max / 2 < c % 2 ^ 64 then Outcome.fatal
          else Outcome.ok (c % 2 ^ 64, (c + 1) % 2 ^ 64)) = _
        rw [if_neg hnl, hc, hc1]
      unfold Context.run_take_ids
      simp only [hok, ih (c + 1) (by omega), List.range'_succ, Option.map_some']
  refine ⟨hfatal, fun n c ids h => ⟨hrange n c ids h, ?_⟩, fun n h => ?_⟩
  · rw [hrange n c ids h]
    exact hpair _ n
  · rw [hcomplete n 0 (by omega), List.range_eq_range']

/-- Witness for C9: three successful allocations from a fresh counter. -/
theorem take_accel_id_spec_witness :
    Context.run_take_ids 0 3 = some (List.range 3) ∧
    (List.range 3).Pairwise (· < ·) :=
  ⟨take_accel_id_spec.2.2 3 (by norm_num),
   (take_accel_id_spec.2.1 3 0 (List.range 3)
     (take_accel_id_spec.2.2 3 (by norm_num))).2⟩

/-! ### Claim C8: codegen-driver sharing via the weak registry -/

theorem lookup_update_entry (l : List (Nat × Nat)) (k v w : Nat)
    (h : l.lookup k = some w) : (update_entry l k v).lookup k = some v := by
  induction l with
  | nil => simp [List.lookup] at h
  | cons e l ih =>
    obtain ⟨a, b⟩ := e
    by_cases hk : a = k
    · have hstep : update_entry ((a, b) :: l) k v = (k, v) :: update_entry l k v := by
        simp [update_entry, hk]
      rw [hstep, lookup_cons_self]
    · have hstep : update_entry ((a, b) :: l) k v = (a, b) :: update_entry l k v := by
        simp [update_entry, hk]
      rw [lookup_cons_ne a k b l (fun hh => hk hh.symm)] at h
      rw [hstep, lookup_cons_ne a k b _ (fun hh => hk hh.symm)]
      exact ih h

theorem publish_accel_getD (s : CtxState) (tr : List (Nat × Nat)) (a : Accel) :
    (Context.publish_accel s tr a).accelerators.getD a.id none = some a :=
  getD_set_of_lt _ a.id _ (length_resize_to s.accelerators a.id)

theorem init_accel_live_entry (s : CtxState) (accel : Accel) (w : Nat)
    (cr : Except Nat Nat)
    (hl : s.translators.lookup accel.target_desc = some w)
    (ha : w ∈ s.driverAlive) :
    Context.init_accel s accel cr
      = .ok (Context.publish_accel s s.translators
               { accel with codegen := some w },
             { accel with codegen := some w }, false) := by
  unfold Context.init_accel
  simp only [hl]
  simp [ha]

theorem init_accel_dead_entry (s : CtxState) (accel : Accel) (w cg : Nat)
    (hl : s.translators.lookup accel.target_desc = some w)
    (hd : w ∉ s.driverAlive) :
    Context.init_accel s accel (.ok cg)
      = .ok (Context.publish_accel s
               (update_entry s.translators accel.target_desc cg)
               { accel with codegen := some cg },
             { accel with codegen := some cg }, true) := by
  unfold Context.init_accel
  simp only [hl]
  simp [hd]

theorem init_accel_vacant_entry (s : CtxState) (accel : Accel) (cg : Nat)
    (hl : s.translators.lookup accel.target_desc = none) :
    Context.init_accel s accel (.ok cg)
      = .ok (Context.publish_accel s
               ((accel.target_desc, cg) :: s.translators)
               { accel with codegen := some cg },
             { accel with codegen := some cg }, true) := by
  unfold Context.init_accel
  simp only [hl]

/-- C8: when the weak registry holds a live driver for the accelerator
target descriptor, `initialize_accel` attaches that same driver without
invoking the collaborator create operation; when the registry entry is dead
or absent, the create operation is invoked and the fresh driver is
republished (overwriting the dead entry or inserted anew); in every case the
accelerator table is grown as needed and the accelerator is published at its
id; and an accelerator registered after a first one with an equal target
descriptor shares the first driver while it is live. -/
theorem init_accel_registry_sharing (s : CtxState) (accel : Accel) (cg : Nat) :
    (∀ w cr, s.translators.lookup accel.target_desc = some w →
      w ∈ s.driverAlive →
      ∃ s' a, Context.init_accel s accel cr = .ok (s', a, false) ∧
        a.codegen = some w ∧ s'.translators = s.translators ∧
        s'.accelerators.getD accel.id none = some a) ∧
    (∀ w, s.translators.lookup accel.target_desc = some w →
      w ∉ s.driverAlive →
      ∃ s' a, Context.init_accel s accel (.ok cg) = .ok (s', a, true) ∧
        a.codegen = some cg ∧
        s'.translators.lookup accel.target_desc = some cg ∧
        s'.accelerators.getD accel.id none = some a) ∧
    (s.translators.lookup accel.target_desc = none →
      ∃ s' a, Context.init_accel s accel (.ok cg) = .ok (s', a, true) ∧
        a.codegen = some cg ∧
        s'.translators.lookup accel.target_desc = some cg ∧
        s'.accelerators.getD accel.id none = some a) ∧
    (∀ accel2 : Accel, s.translators.lookup accel.target_desc = none →
      accel2.target_desc = accel.target_desc →
      ∃ s' a, Context.init_accel s accel (.ok cg) = .ok (s', a, true) ∧
        a.codegen = some cg ∧
        (cg ∈ s'.driverAlive → ∀ cr2, ∃ s'' a2,
          Context.init_accel s' accel2 cr2 = .ok (s'', a2, false) ∧
          a2.codegen = some cg)) := by
  refine ⟨?_, ?_, ?_, ?_⟩
  · intro w cr hl ha
    exact ⟨_, _, init_accel_live_entry s accel w cr hl ha, rfl, rfl,
      publish_accel_getD s s.translators _⟩
  · intro w hl hd
    exact ⟨_, _, init_accel_dead_entry s accel w cg hl hd, rfl,
      lookup_update_entry s.translators accel.target_desc cg w hl,
      publish_accel_getD s _ _⟩
  · intro hl
    exact ⟨_, _, init_accel_vacant_entry s accel cg hl, rfl,
      lookup_cons_self accel.target_desc cg s.translators,
      publish_accel_getD s _ _⟩
  · intro accel2 hl htd
    refine ⟨_, _, init_accel_vacant_entry s accel cg hl, rfl, ?_⟩
    intro halive cr2
    have hl2 : (Context.publish_accel s ((accel.target_desc, cg) :: s.translators)
        { accel with codegen := some cg }).translators.lookup accel2.target_desc
        = some cg := by
      show ((accel.target_desc, cg) :: s.translators).lookup accel2.target_desc
        = some cg
      rw [htd, lookup_cons_self]
    exact ⟨_, _, init_accel_live_entry _ accel2 cg cr2 hl2 halive, rfl⟩

/-- Witness for C8: a live registry entry is shared; a dead entry and a
vacant registry cause the collaborator create operation to run. -/
theorem init_accel_registry_sharing_witness :
    (∃ s' a, Context.init_accel ⟨[(3, 9)], [9], []⟩ ⟨0, 3, none⟩ (.error 5)
        = .ok (s', a, false) ∧
      a.codegen = some 9 ∧ s'.translators = [(3, 9)] ∧
      s'.accelerators.getD 0 none = some a) ∧
    (∃ s' a, Context.init_accel ⟨[(3, 9)], [], []⟩ ⟨0, 3, none⟩ (.ok 11)
        = .ok (s', a, true) ∧
      a.codegen = some 11 ∧ s'.translators.lookup 3 = some 11 ∧
      s'.accelerators.getD 0 none = some a) ∧
    (∃ s' a, Context.init_accel ⟨[], [9], []⟩ ⟨0, 3, none⟩ (.ok 11)
        = .ok (s', a, true) ∧
      a.codegen = some 11 ∧ s'.translators.lookup 3 = some 11 ∧
      s'.accelerators.getD 0 none = some a) :=
  ⟨(init_accel_registry_sharing ⟨[(3, 9)], [9], []⟩ ⟨0, 3, none⟩ 0).1 9
      (.error 5) rfl (by decide),
   (init_accel_registry_sharing ⟨[(3, 9)], [], []⟩ ⟨0, 3, none⟩ 11).2.1 9
      rfl (by decide),
   (init_accel_registry_sharing ⟨[], [9], []⟩ ⟨0, 3, none⟩ 11).2.2.1 rfl⟩

/-! ### Claims C1 - C3: the ModuleContextData memoization cell -/

/-- C2 counterexample: the cell holds a `ModuleData` recorded to context 5,
and both context 5 and the supplied context 7 are live — `upgrade` hits the
`assert!` and is fatal, instead of returning empty as the claim requires for
every mismatch. -/
theorem upgrade_live_mismatch_fatal :
    ModuleContextData.upgrade ⟨1, [(1, 5)], [(1, 1)], [5, 7], 2⟩ 7
      = .fatal := by
  decide

/-- C2 (amended): when the recorded owning Context of the held `ModuleData`
has been destroyed, `upgrade` returns empty (never an error); but when the
recorded Context is still live and is a different Context from the supplied
one, `upgrade` is a fatal assertion rather than empty. -/
theorem upgrade_mismatch_behaviour (s : MCDState) (context c : Nat)
    (hcell : s.cell ≠ 0)
    (hc : s.heap.lookup s.cell = some c) :
    (c ∉ s.alive → ModuleContextData.upgrade s context = .ok (none, s)) ∧
    (c ∈ s.alive → c ≠ context →
      ModuleContextData.upgrade s context = .fatal) := by
  constructor
  · intro hd
    unfold ModuleContextData.upgrade
    simp only [hc]
    simp [hcell, hd]
  · intro ha hne
    unfold ModuleContextData.upgrade
    simp only [hc]
    simp [hcell, ha, hne]

/-- Witness for the amended C2: a dead recorded context yields empty. -/
theorem upgrade_mismatch_behaviour_witness :
    ModuleContextData.upgrade ⟨1, [(1, 5)], [(1, 1)], [7], 2⟩ 7
      = .ok (none, ⟨1, [(1, 5)], [(1, 1)], [7], 2⟩) :=
  (upgrade_mismatch_behaviour ⟨1, [(1, 5)], [(1, 1)], [7], 2⟩ 7 5
    (by decide) rfl).1 (by decide)

theorem upgrade_none_of_empty (s : MCDState) (context : Nat)
    (h0 : s.cell = 0) :
    ModuleContextData.upgrade s context = .ok (none, s) := by
  unfold ModuleContextData.upgrade
  simp [h0]

theorem upgrade_none_of_dead (s : MCDState) (context c : Nat)
    (hl : s.heap.lookup s.cell = some c) (hd : c ∉ s.alive) :
    ModuleContextData.upgrade s context = .ok (none, s) := by
  unfold ModuleContextData.upgrade
  simp only [hl]
  by_cases h0 : s.cell = 0 <;> simp [h0, hd]

theorem upgrade_some_of_match (s : MCDState) (context : Nat)
    (h0 : s.cell ≠ 0) (hl : s.heap.lookup s.cell = some context)
    (ha : context ∈ s.alive) :
    ModuleContextData.upgrade s context
      = .ok (some s.cell, bumpRc s s.cell) := by
  unfold ModuleContextData.upgrade
  simp only [hl]
  simp [h0, ha]

theorem get_cache_data_of_upgrade_some (s : MCDState) (context p : Nat)
    (s1 : MCDState)
    (h : ModuleContextData.upgrade s context = .ok (some p, s1)) :
    ModuleContextData.get_cache_data s context = .ok (p, s1) := by
  unfold ModuleContextData.get_cache_data
  simp only [h]

/-- C1 counterexample: `get_cache_data` is not total over all cell states —
when the cell holds a `ModuleData` recorded to live context 5 and a
different live context 7 resolves, the first `upgrade` hits the `assert!`
and the call is fatal. -/
theorem get_cache_data_live_mismatch_fatal :
    ModuleContextData.get_cache_data ⟨1, [(1, 5)], [(1, 1)], [5, 7], 2⟩ 7
      = .fatal := by
  decide

/-- C1 (amended): for every live supplied Context and every well-formed cell
state whose held `ModuleData` (if any) is recorded either to the supplied
Context or to an already-destroyed Context, `get_cache_data` succeeds and
returns a `ModuleData` whose recorded owning Context is the supplied (live)
one, published in the cell; in particular, when the cell holds the empty
sentinel the compare-and-swap from empty succeeds and the brand-new
`ModuleData` constructed by this call is both published into the cell and
returned. -/
theorem get_cache_data_resolves (s : MCDState) (context : Nat)
    (halive : context ∈ s.alive)
    (hfresh : s.heap.lookup s.nextPtr = none)
    (hsome : s.cell ≠ 0 → (s.heap.lookup s.cell).isSome = true)
    (hwf : ∀ c, s.heap.lookup s.cell = some c → c ∉ s.alive ∨ c = context) :
    ∃ p s', ModuleContextData.get_cache_data s context = .ok (p, s') ∧
      s'.heap.lookup p = some context ∧ s'.cell = p ∧
      (s.cell = 0 → p = s.nextPtr ∧
        s'.heap = (s.nextPtr, context) :: s.heap) := by
  by_cases h0 : s.cell = 0
  · refine ⟨s.nextPtr,
      { s with cell := s.nextPtr,
               heap := (s.nextPtr, context) :: s.heap,
               rc := (s.nextPtr, 2) :: s.rc,
               nextPtr := s.nextPtr + 1 },
      ?_, lookup_cons_self _ _ _, rfl, fun _ => ⟨rfl, rfl⟩⟩
    unfold ModuleContextData.get_cache_data
    simp only [upgrade_none_of_empty s context h0]
    simp [h0]
  · cases hl : s.heap.lookup s.cell with
    | none => rw [hl] at hsome; simp at hsome; exact absurd hsome h0
    | some c =>
      rcases hwf c hl with hdead | hctx
      · -- the held data is stale: the replacement CAS succeeds.
        have hne : s.cell ≠ s.nextPtr := by
          intro he
          rw [he, hfresh] at hl
          cases hl
        refine ⟨s.nextPtr,
          decRc { s with cell := s.nextPtr,
                         heap := (s.nextPtr, context) :: s.heap,
                         rc := (s.nextPtr, 2) :: s.rc,
                         nextPtr := s.nextPtr + 1 } s.cell,
          ?_, lookup_cons_self _ _ _, rfl, fun hcon => absurd hcon h0⟩
        have hl2 : (({ s with heap := (s.nextPtr, context) :: s.heap,
                              rc := (s.nextPtr, 2) :: s.rc,
                              nextPtr := s.nextPtr + 1 } : MCDState)).heap.lookup
            (({ s with heap := (s.nextPtr, context) :: s.heap,
                       rc := (s.nextPtr, 2) :: s.rc,
                       nextPtr := s.nextPtr + 1 } : MCDState)).cell = some c := by
          show ((s.nextPtr, context) :: s.heap).lookup s.cell = some c
          rw [lookup_cons_ne _ _ _ _ hne]
          exact hl
        unfold ModuleContextData.get_cache_data
        simp only [upgrade_none_of_dead s context c hl hdead]
        simp only [upgrade_none_of_dead _ context c hl2 hdead]
        simp [h0]
      · -- the held data already belongs to the supplied context: plain hit.
        subst hctx
        refine ⟨s.cell, bumpRc s s.cell,
          get_cache_data_of_upgrade_some s c s.cell (bumpRc s s.cell)
            (upgrade_some_of_match s c h0 hl halive),
          hl, rfl, fun hcon => absurd hcon h0⟩

/-- Witness for the amended C1: resolving against an empty cell publishes
and returns the fresh `ModuleData`. -/
theorem get_cache_data_resolves_witness :
    ∃ p s', ModuleContextData.get_cache_data ⟨0, [], [], [7], 1⟩ 7
        = .ok (p, s') ∧
      s'.heap.lookup p = some 7 ∧ s'.cell = p ∧
      ((0 : Nat) = 0 → p = 1 ∧ s'.heap = [(1, 7)]) :=
  get_cache_data_resolves ⟨0, [], [], [7], 1⟩ 7 (by decide) rfl
    (fun h => absurd rfl h) (fun c hc => by cases hc)

theorem rcOf_decRc_self (s : MCDState) (p : Nat) :
    rcOf (decRc s p) p = rcOf s p - 1 := by
  show (((p, rcOf s p - 1) :: s.rc).lookup p).getD 0 = rcOf s p - 1
  rw [lookup_cons_self]
  rfl

theorem rcOf_decRc_ne (s : MCDState) (p q : Nat) (h : q ≠ p) :
    rcOf (decRc s p) q = rcOf s q := by
  show (((p, rcOf s p - 1) :: s.rc).lookup q).getD 0 = rcOf s q
  rw [lookup_cons_ne _ _ _ _ h]
  rfl

theorem rcOf_bumpRc_ne (s : MCDState) (p q : Nat) (h : q ≠ p) :
    rcOf (bumpRc s p) q = rcOf s q := by
  show (((p, rcOf s p + 1) :: s.rc).lookup q).getD 0 = rcOf s q
  rw [lookup_cons_ne _ _ _ _ h]
  rfl

theorem upgrade_shape (s : MCDState) (ctx : Nat) :
    ModuleContextData.upgrade s ctx = .fatal ∨
    ModuleContextData.upgrade s ctx = .ok (none, s) ∨
    ModuleContextData.upgrade s ctx
      = .ok (some s.cell, bumpRc s s.cell) := by
  unfold ModuleContextData.upgrade
  by_cases h0 : s.cell = 0
  · right; left; simp [h0]
  cases hl : s.heap.lookup s.cell with
  | none => left; simp [h0, hl]
  | some c =>
    by_cases ha : c ∈ s.alive
    · by_cases hc : c = ctx
      · subst hc
        right; right; simp [h0, hl, ha]
      · left; simp [h0, hl, ha, hc]
    · right; left; simp [h0, hl, ha]

theorem get_cache_data_rc_pres (t : MCDState) (ctx p : Nat) (t' : MCDState)
    (hfresh : t.rc.lookup t.nextPtr = none)
    (h : ModuleContextData.get_cache_data t ctx = .ok (p, t'))
    (q n : Nat) (hq : t.rc.lookup q = some n) (hqc : q ≠ t.cell) :
    rcOf t' q = n := by
  have hqp : q ≠ t.nextPtr := by
    intro he
    rw [he, hfresh] at hq
    cases hq
  unfold ModuleContextData.get_cache_data at h
  rcases upgrade_shape t ctx with h1 | h1 | h1
  · rw [h1] at h
    cases h
  · simp only [h1] at h
    by_cases h0 : t.cell = 0
    · simp only [h0, if_pos] at h
      rw [Outcome.ok.injEq, Prod.mk.injEq] at h
      obtain ⟨hp, ht'⟩ := h
      subst ht'
      simp [rcOf, lookup_cons_ne, hqp, hq]
    · simp only [h0, if_neg, if_false] at h
      rcases upgrade_shape
          { t with heap := (t.nextPtr, ctx) :: t.heap,
                   rc := (t.nextPtr, 2) :: t.rc,
                   nextPtr := t.nextPtr + 1 } ctx with h2 | h2 | h2
      · rw [h2] at h
        cases h
      · simp only [h2] at h
        simp only [if_pos] at h
        rw [Outcome.ok.injEq, Prod.mk.injEq] at h
        obtain ⟨hp, ht'⟩ := h
        subst ht'
        rw [rcOf_decRc_ne _ _ _ hqc]
        simp [rcOf, lookup_cons_ne, hqp, hq]
      · simp only [h2] at h
        rw [Outcome.ok.injEq, Prod.mk.injEq] at h
        obtain ⟨hp, ht'⟩ := h
        subst ht'
        rw [rcOf_decRc_ne _ _ _ hqp, rcOf_decRc_ne _ _ _ hqp,
          rcOf_bumpRc_ne _ _ _ hqc]
        simp [rcOf, lookup_cons_ne, hqp, hq]
  · simp only [h1] at h
    rw [Outcome.ok.injEq, Prod.mk.injEq] at h
    obtain ⟨hp, ht'⟩ := h
    subst ht'
    rw [rcOf_bumpRc_ne _ _ _ hqc]
    simp [rcOf, hq]

/-- C3: stale replacement releases exactly once.  With the cell populated by
a `ModuleData` recorded to a destroyed context `a`, `get_cache_data` for a
live context `b` returns a fresh `ModuleData` recorded to `b` and published
in the cell; the strong count of the old `ModuleData` drops by exactly one
(the cell ownership unit — no double free), the fresh one holds exactly two
units (the cell plus the returned handle — no leak), every other allocation
is untouched; and — across every input state, covering every branch of the
call — no allocation other than the one previously cached in the cell ever
loses a unit. -/
theorem get_cache_data_stale_release (s : MCDState) (a b : Nat)
    (hcell : s.cell ≠ 0)
    (hheap : s.heap.lookup s.cell = some a)
    (hdead : a ∉ s.alive)
    (_halive : b ∈ s.alive)
    (hfresh : s.heap.lookup s.nextPtr = none)
    (hunit : 1 ≤ rcOf s s.cell) :
    (∃ s', ModuleContextData.get_cache_data s b = .ok (s.nextPtr, s') ∧
      s'.heap.lookup s.nextPtr = some b ∧
      s'.cell = s.nextPtr ∧
      rcOf s' s.cell + 1 = rcOf s s.cell ∧
      rcOf s' s.nextPtr = 2 ∧
      ∀ q, q ≠ s.cell → q ≠ s.nextPtr → rcOf s' q = rcOf s q) ∧
    (∀ (t : MCDState) (ctx p : Nat) (t' : MCDState),
      t.rc.lookup t.nextPtr = none →
      ModuleContextData.get_cache_data t ctx = .ok (p, t') →
      ∀ q n, t.rc.lookup q = some n → q ≠ t.cell → rcOf t' q = n) := by
  constructor
  · have hne : s.cell ≠ s.nextPtr := by
      intro he
      rw [he, hfresh] at hheap
      cases hheap
    refine ⟨decRc { s with cell := s.nextPtr,
                           heap := (s.nextPtr, b) :: s.heap,
                           rc := (s.nextPtr, 2) :: s.rc,
                           nextPtr := s.nextPtr + 1 } s.cell,
      ?_, lookup_cons_self _ _ _, rfl, ?_, ?_, ?_⟩
    · have hl2 : (({ s with heap := (s.nextPtr, b) :: s.heap,
                            rc := (s.nextPtr, 2) :: s.rc,
                            nextPtr := s.nextPtr + 1 } : MCDState)).heap.lookup
          (({ s with heap := (s.nextPtr, b) :: s.heap,
                     rc := (s.nextPtr, 2) :: s.rc,
                     nextPtr := s.nextPtr + 1 } : MCDState)).cell = some a := by
        show ((s.nextPtr, b) :: s.heap).lookup s.cell = some a
        rw [lookup_cons_ne _ _ _ _ hne]
        exact hheap
      unfold ModuleContextData.get_cache_data
      simp only [upgrade_none_of_dead s b a hheap hdead]
      simp only [upgrade_none_of_dead _ b a hl2 hdead]
      simp [hcell]
    · rw [rcOf_decRc_self]
      show (((s.nextPtr, 2) :: s.rc).lookup s.cell).getD 0 - 1 + 1
        = rcOf s s.cell
      rw [lookup_cons_ne _ _ _ _ hne]
      show rcOf s s.cell - 1 + 1 = rcOf s s.cell
      omega
    · rw [rcOf_decRc_ne _ _ _ (fun he => hne he.symm)]
      show (((s.nextPtr, 2) :: s.rc).lookup s.nextPtr).getD 0 = 2
      rw [lookup_cons_self]
      rfl
    · intro q hq1 hq2
      rw [rcOf_decRc_ne _ _ _ hq1]
      show (((s.nextPtr, 2) :: s.rc).lookup q).getD 0 = rcOf s q
      rw [lookup_cons_ne _ _ _ _ hq2]
      rfl
  · intro t ctx p t' hf h q n hq hqc
    exact get_cache_data_rc_pres t ctx p t' hf h q n hq hqc

/-- Witness for C3 at a concrete stale cell: context 5 is dead, context 7
resolves; the old allocation at address 1 drops from one unit to zero and
the fresh allocation at address 2 is published with two units. -/
theorem get_cache_data_stale_release_witness :
    (∃ s', ModuleContextData.get_cache_data ⟨1, [(1, 5)], [(1, 1)], [7], 2⟩ 7
        = .ok (2, s') ∧
      s'.heap.lookup 2 = some 7 ∧
      s'.cell = 2 ∧
      rcOf s' 1 + 1 = rcOf ⟨1, [(1, 5)], [(1, 1)], [7], 2⟩ 1 ∧
      rcOf s' 2 = 2 ∧
      ∀ q, q ≠ 1 → q ≠ 2 →
        rcOf s' q = rcOf ⟨1, [(1, 5)], [(1, 1)], [7], 2⟩ q) ∧
    (∀ (t : MCDState) (ctx p : Nat) (t' : MCDState),
      t.rc.lookup t.nextPtr = none →
      ModuleContextData.get_cache_data t ctx = .ok (p, t') →
      ∀ q n, t.rc.lookup q = some n → q ≠ t.cell → rcOf t' q = n) :=
  get_cache_data_stale_release ⟨1, [(1, 5)], [(1, 1)], [7], 2⟩ 5 7
    (by decide) rfl (by decide) (by decide) rfl (by decide)
